import Mathlib

/-!
# Verification of the Hyperliquid copy-trading bot core

Shallow embedding of the fill-driven mirroring engine:
risk utilities (`src/utils/risk.ts`), the copy-trader orchestration
(`src/copyTrader.ts`, including its enhanced variant with retry
classification), the error/retry combinator (`src/utils/errors.ts`) and the
exchange client entry points (`src/hyperliquidClient.ts`).

JavaScript runtime numbers are modelled by `JSNum`: a rational together with
the three non-finite IEEE values (`NaN`, `+Infinity`, `-Infinity`).  The code
under verification never depends on rounding, only on sign tests, comparisons
(whose `NaN` behaviour matters), and the `isNaN`/`isFinite` classification,
so exact rational arithmetic with explicit non-finite values is a faithful
model of every operation the embedded functions perform.
-/

namespace HLBot

/-- A JavaScript `number` as used by the bot: `NaN`, `±Infinity`, or a finite
value modelled exactly as a rational (`-0` is identified with `0`). -/
inductive JSNum where
  | nan : JSNum
  | inf : Bool → JSNum   -- `inf true` is `+Infinity`, `inf false` is `-Infinity`
  | fin : ℚ → JSNum
deriving DecidableEq

/-- JavaScript `isNaN`. -/
def jsIsNaN : JSNum → Bool
  | .nan => true
  | _ => false

/-- JavaScript `isFinite`. -/
def jsIsFinite : JSNum → Bool
  | .fin _ => true
  | _ => false

/-- JavaScript `<=` on numbers: any comparison with `NaN` is `false`. -/
def jsLe : JSNum → JSNum → Bool
  | .nan, _ => false
  | _, .nan => false
  | .inf false, _ => true
  | _, .inf true => true
  | .inf true, _ => false
  | _, .inf false => false
  | .fin a, .fin b => decide (a ≤ b)

/-- JavaScript `<` on numbers: any comparison with `NaN` is `false`. -/
def jsLt : JSNum → JSNum → Bool
  | .nan, _ => false
  | _, .nan => false
  | .inf false, .inf false => false
  | .inf false, _ => true
  | .inf true, _ => false
  | _, .inf true => true
  | _, .inf false => false
  | .fin a, .fin b => decide (a < b)

/-- JavaScript `Math.min`: `NaN` if either argument is `NaN`. -/
def jsMin (a b : JSNum) : JSNum :=
  if jsIsNaN a ∨ jsIsNaN b then .nan
  else if jsLe a b then a else b

/-- JavaScript multiplication (`Infinity * 0 = NaN`, sign rules for
infinities, `NaN` propagation). -/
def jsMul : JSNum → JSNum → JSNum
  | .nan, _ => .nan
  | _, .nan => .nan
  | .fin a, .fin b => .fin (a * b)
  | .inf s, .fin b => if b = 0 then .nan else .inf (s == decide (0 < b))
  | .fin a, .inf s => if a = 0 then .nan else .inf (s == decide (0 < a))
  | .inf s, .inf t => .inf (s == t)

/-- JavaScript division.  Division by zero uses the `+0` semantics
(`x / 0 = ±Infinity` for `x ≠ 0`, `0 / 0 = NaN`); `-0` is not distinguished. -/
def jsDiv : JSNum → JSNum → JSNum
  | .nan, _ => .nan
  | _, .nan => .nan
  | .inf _, .inf _ => .nan
  | .inf s, .fin b => .inf (s == decide (0 ≤ b))
  | .fin _, .inf _ => .fin 0
  | .fin a, .fin b =>
      if b = 0 then (if a = 0 then .nan else .inf (decide (0 < a)))
      else .fin (a / b)

/-- JavaScript `Math.abs`. -/
def jsAbs : JSNum → JSNum
  | .nan => .nan
  | .inf _ => .inf true
  | .fin a => .fin (abs a)

/-- The configuration values consulted by the core (`src/config.ts`).  The
zod schema parses them from the environment; numeric knobs are finite numbers
(modelled as rationals), `BLOCKED_ASSETS` is a list of upper-cased, trimmed,
non-empty symbols, `MAX_CONCURRENT_TRADES` is a positive integer. -/
structure RiskConfig where
  SIZE_MULTIPLIER : ℚ
  MAX_LEVERAGE : ℚ
  MAX_POSITION_SIZE_PERCENT : ℚ
  MIN_NOTIONAL : ℚ
  MAX_CONCURRENT_TRADES : Nat
  BLOCKED_ASSETS : List String
deriving DecidableEq

/-! ## `src/utils/risk.ts` -/

/-- `removeTrailingZeros` (risk.ts:13-15): `value.replace(/\.?0+$/, '')`.
The regex `\.?0+$` matches, at the leftmost possible position, an optional
dot followed by a run of zeros reaching the end of the string; a match exists
iff the string ends in `'0'`, and the leftmost such match is the maximal
trailing run of `'0'`s, preceded by the dot when one immediately precedes
that run.  The replacement deletes exactly that suffix.  The identical inline
expression appears in `placeOrder` (hyperliquidClient.ts:228-229). -/
def removeTrailingZeros (s : String) : String :=
  match s.data.reverse with
  | '0' :: _ =>
      let r := s.data.reverse.dropWhile (fun c => c = '0')
      let r2 := match r with
        | '.' :: rest => rest
        | l => l
      ⟨r2.reverse⟩
  | _ => s

/-- `isAssetBlocked` (risk.ts:20-22): `BLOCKED_ASSETS.includes(coin.toUpperCase())`.
`toUpperCase` is modelled character-wise (the asset symbols involved are
ASCII, where JavaScript `toUpperCase` is exactly per-character uppercasing). -/
def isAssetBlocked (cfg : RiskConfig) (coin : String) : Bool :=
  cfg.BLOCKED_ASSETS.contains ⟨coin.data.map Char.toUpper⟩

/-- `meetsMinimumNotional` (risk.ts:28-31): `size * price >= MIN_NOTIONAL`,
on the parsed numeric values of the size and price strings. -/
def meetsMinimumNotional (cfg : RiskConfig) (size price : JSNum) : Bool :=
  jsLe (.fin cfg.MIN_NOTIONAL) (jsMul size price)

/-- `capLeverage` (risk.ts:36-38): `Math.min(leverage, MAX_LEVERAGE)`. -/
def capLeverage (cfg : RiskConfig) (leverage : JSNum) : JSNum :=
  jsMin leverage (.fin cfg.MAX_LEVERAGE)

/-- `capPositionSize` (risk.ts:43-49):
`Math.min(calculatedSize, ourEquity * MAX_POSITION_SIZE_PERCENT / 100)`. -/
def capPositionSize (cfg : RiskConfig) (calculatedSize ourEquity : JSNum) : JSNum :=
  jsMin calculatedSize (jsDiv (jsMul ourEquity (.fin cfg.MAX_POSITION_SIZE_PERCENT)) (.fin 100))

/-- `calculatePositionSize` (risk.ts:55-80).  When `targetEquity === 0` the
function returns `targetSize * SIZE_MULTIPLIER` immediately (with a warning
log); otherwise it computes `(ourEquity / targetEquity) * targetSize *
SIZE_MULTIPLIER` and passes it through `capPositionSize`. -/
def calculatePositionSize (cfg : RiskConfig) (targetSize ourEquity targetEquity : JSNum) : JSNum :=
  if targetEquity = .fin 0 then
    jsMul targetSize (.fin cfg.SIZE_MULTIPLIER)
  else
    capPositionSize cfg
      (jsMul (jsMul (jsDiv ourEquity targetEquity) targetSize) (.fin cfg.SIZE_MULTIPLIER))
      ourEquity

/-- The three trade actions of `getTradeAction` (risk.ts:85):
`'open' | 'reduce' | 'close'`. -/
inductive TradeAction where
  | tOpen : TradeAction
  | tReduce : TradeAction
  | tClose : TradeAction
deriving DecidableEq

/-- A fill event (types.ts `FillEvent`).  The numeric fields `sz`, `px` and
`startPosition` are decimal strings in the source; the model carries their
`parseFloat` denotations directly.  `dir` is carried as a raw string since
`getTradeAction` compares it against literals and falls back otherwise. -/
structure Fill where
  coin : String
  side : String          -- 'A' | 'B'
  sz : JSNum             -- parseFloat(fill.sz)
  px : JSNum             -- parseFloat(fill.px)
  startPosition : JSNum  -- parseFloat(fill.startPosition)
  dir : String

/-- `getTradeAction` (risk.ts:85-99): direction dispatch; for closes, `close`
iff `Math.abs(startPos) <= fillSize`, else `reduce`; default `reduce`. -/
def getTradeAction (fill : Fill) : TradeAction :=
  if fill.dir = "Open Long" ∨ fill.dir = "Open Short" then .tOpen
  else if fill.dir = "Close Long" ∨ fill.dir = "Close Short" then
    if jsLe (jsAbs fill.startPosition) fill.sz then .tClose else .tReduce
  else .tReduce

/-- Which check of `validateTradeParams` (risk.ts:104-141) rejected the
parameters; each constructor corresponds to one of the four early-return
branches, in source order. -/
inductive InvalidReason where
  | blockedAsset : InvalidReason
  | belowMinNotional : InvalidReason
  | leverageExceedsMax : InvalidReason
  | positionExceedsMax : InvalidReason
deriving DecidableEq

/-- Computed trade intent (types.ts `CopyTradeParams`).  `size` carries the
parsed numeric value of the size string; `leverage` is the (possibly capped)
parsed leverage.  The `orderType` field is always `'Market'` in the code and
is omitted. -/
structure CopyTradeParamsM where
  coin : String
  side : String
  size : JSNum
  reduceOnly : Bool
  leverage : JSNum

/-- `validateTradeParams` (risk.ts:104-141): blocked asset, then minimum
notional, then leverage cap, then position-size cap; first failure wins.
`none` means `{valid: true}`; `some r` identifies the returned reason. -/
def validateTradeParams (cfg : RiskConfig) (params : CopyTradeParamsM)
    (price ourEquity : JSNum) : Option InvalidReason :=
  if isAssetBlocked cfg params.coin then some .blockedAsset
  else if ¬ meetsMinimumNotional cfg params.size price then some .belowMinNotional
  else if jsLt (.fin cfg.MAX_LEVERAGE) params.leverage then some .leverageExceedsMax
  else if jsLt (jsDiv (jsMul ourEquity (.fin cfg.MAX_POSITION_SIZE_PERCENT)) (.fin 100))
      (jsMul params.size price) then some .positionExceedsMax
  else none

/-! ## `src/copyTrader.ts` (enhanced variant with error classification) -/

/-- A target position as consulted by `calculateTradeParams` (types.ts
`Position`): the signed size `szi` (as its parsed value) and, when the
position carries a leverage object, the parsed `leverage.value`. -/
structure PositionM where
  coin : String
  szi : JSNum
  leverageValue : Option JSNum

/-- `CopyTrader.calculateTradeParams` (copyTrader.ts:237-313 of the enhanced
variant; the basic variant at copyTrader.ts:153-218 is identical except that
it lacks the final size-validity guard).  Side selection, sizing via
`calculatePositionSize`, leverage capping, the max-concurrent-trades gate for
`open` actions, and the guard rejecting a non-positive / `NaN` / non-finite
computed size; `none` models the `null` returns.  The returned `size` field
carries the computed numeric size (the source stringifies it with
`toFixed(8)` + `removeTrailingZeros`, which the claims do not consume). -/
def calculateTradeParams (cfg : RiskConfig) (fill : Fill) (action : TradeAction)
    (targetPosition : Option PositionM) (ourEquity targetEquity : JSNum)
    (activeCount : Nat) : Option CopyTradeParamsM :=
  let side : String :=
    if action = .tOpen then (if fill.dir = "Open Long" then "B" else "A")
    else match targetPosition with
      | some p => if jsLt (.fin 0) p.szi then "A" else "B"
      | none => fill.side
  let reduceOnly := action ≠ .tOpen
  let calculatedSize := calculatePositionSize cfg fill.sz ourEquity targetEquity
  let leverage : JSNum :=
    match targetPosition with
    | some p =>
        match p.leverageValue with
        | some lv => capLeverage cfg lv
        | none => .fin 1
    | none => .fin 1
  if action = .tOpen ∧ cfg.MAX_CONCURRENT_TRADES ≤ activeCount then none
  else if jsLe calculatedSize (.fin 0) ∨ jsIsNaN calculatedSize ∨ ¬ jsIsFinite calculatedSize
    then none
  else some { coin := fill.coin, side := side, size := calculatedSize,
              reduceOnly := reduceOnly, leverage := leverage }

/-- One step of `CopyTrader.handleFill` (copyTrader.ts:75-232) as it acts on
the `activeTrades` ledger.  External effects are oracles: `fetchOk` is
whether the equity/position fetches succeeded (their failure paths return
before any trade), `execSuccess` is the `result.success` of `executeTrade`.
Returns the new ledger and whether an order execution was attempted.
On success: `open` inserts the coin, `close` erases it, `reduce` leaves the
ledger unchanged; every other path leaves the ledger unchanged. -/
def handleFillStep (cfg : RiskConfig) (fill : Fill)
    (targetPosition : Option PositionM) (ourEquity targetEquity : JSNum)
    (fetchOk execSuccess : Bool) (s : Finset String) : Finset String × Bool :=
  let action := getTradeAction fill
  if ¬ fetchOk then (s, false)
  else
    match calculateTradeParams cfg fill action targetPosition ourEquity targetEquity s.card with
    | none => (s, false)
    | some _ =>
        if execSuccess then
          (match action with
           | .tOpen => insert fill.coin s
           | .tClose => s.erase fill.coin
           | .tReduce => s, true)
        else (s, true)

/-! ## `src/utils/errors.ts` -/

/-- An `AppError` as it crosses the retry boundary: its message and its
`retryable` flag.  Every error thrown by `placeOrder` is an `AppError`
subclass (`TradingError` / `SDKError`), so `ErrorHandler.isRetryable`
reduces to reading this flag, and `ErrorHandler.wrapError` is the identity. -/
structure AppErr where
  message : String
  retryable : Bool
deriving DecidableEq

/-- Outcome of one invocation of the retried operation. -/
inductive AttemptResult (α : Type) where
  | ok : α → AttemptResult α
  | err : AppErr → AttemptResult α

/-- `retryWithBackoff` (errors.ts:239-275), with the `n`-th invocation of
`fn` modelled by `fn n`.  `attempt` is the current loop counter and
`remaining` the number of loop iterations left (`maxRetries - attempt + 1`);
the top-level call uses `attempt = 1`, `remaining = maxRetries`.  Besides the
result (`Except.error` models the function throwing) it returns the list of
attempt numbers at which `fn` was actually invoked.  A non-retryable error is
rethrown at once; on the last allowed attempt the loop breaks and throws
`wrapError(lastError)`, which for an `AppError` is that same error. -/
def retryWithBackoff {α : Type} (fn : Nat → AttemptResult α) :
    Nat → Nat → Except AppErr α × List Nat
  | _, 0 => (.error ⟨"Unknown error occurred", false⟩, [])
  | attempt, remaining + 1 =>
      match fn attempt with
      | .ok a => (.ok a, [attempt])
      | .err e =>
          if ¬ e.retryable then (.error e, [attempt])
          else
            match remaining with
            | 0 => (.error e, [attempt])
            | r + 1 =>
                let rest := retryWithBackoff fn (attempt + 1) (r + 1)
                (rest.1, attempt :: rest.2)

/-- Outcome record of one execution sequence (types.ts `TradeResult`). -/
structure TradeResultM where
  success : Bool
  orderId : Option String
  error : Option String
deriving DecidableEq

/-- The reason string built for a failed validation (`Asset X is blocked`
etc.); the claims never inspect its exact text, only that the failure
carries the validation failure rather than a placement error. -/
def validationMessage (r : InvalidReason) (params : CopyTradeParamsM) : String :=
  match r with
  | .blockedAsset => "Asset " ++ params.coin ++ " is blocked"
  | .belowMinNotional => "Position size below minimum notional"
  | .leverageExceedsMax => "Leverage exceeds max"
  | .positionExceedsMax => "Position value exceeds max"

/-- `CopyTrader.executeTrade` (copyTrader.ts:318-384 of the enhanced
variant): validate first — a failure returns a failed `TradeResult` at once,
without touching the client; otherwise run `placeOrder` under
`retryWithBackoff` with `maxRetries = 3`, converting a thrown error into a
failed `TradeResult` carrying its message.  `placeOrderAttempt n` is the
outcome of the `n`-th placement attempt.  Also returns the list of attempts
made, to express "no placement / no retry" properties.  The function is
total: every control path yields a `TradeResultM`, which is the embedding of
"never raises past this boundary". -/
def executeTrade (cfg : RiskConfig) (params : CopyTradeParamsM)
    (price ourEquity : JSNum) (placeOrderAttempt : Nat → AttemptResult String) :
    TradeResultM × List Nat :=
  match validateTradeParams cfg params price ourEquity with
  | some r =>
      ({ success := false, orderId := none,
         error := some (validationMessage r params) }, [])
  | none =>
      match retryWithBackoff placeOrderAttempt 1 3 with
      | (.ok oid, atts) => ({ success := true, orderId := some oid, error := none }, atts)
      | (.error e, atts) => ({ success := false, orderId := none, error := some e.message }, atts)

/-! ## `src/hyperliquidClient.ts` -/

/-- Decimal-string denotation: parses `[-] digits [ . digits ]` to a
rational.  Agrees with JavaScript `parseFloat` on every well-formed decimal
string; other strings (in particular the empty string) denote `NaN`. -/
def parseDecimalQ (s : String) : Option ℚ :=
  let parsePos : List Char → Option ℚ := fun l =>
    let intPart := l.takeWhile Char.isDigit
    let rest := l.dropWhile Char.isDigit
    if intPart.isEmpty then none
    else
      let intVal : ℚ := (intPart.foldl (fun acc c => acc * 10 + (c.toNat - 48)) 0 : Nat)
      match rest with
      | [] => some intVal
      | '.' :: frac =>
          if frac.isEmpty ∨ ¬ frac.all Char.isDigit then none
          else
            let fracVal : ℚ := (frac.foldl (fun acc c => acc * 10 + (c.toNat - 48)) 0 : Nat)
            some (intVal + fracVal / (10 ^ frac.length))
      | _ => none
  match s.data with
  | '-' :: rest => (parsePos rest).map (fun q => -q)
  | l => parsePos l

/-- JavaScript `parseFloat` on the decimal strings the bot handles. -/
def parseFloatM (s : String) : JSNum :=
  match parseDecimalQ s with
  | some q => .fin q
  | none => .nan

/-- How far `placeOrder` (hyperliquidClient.ts:206-298) gets, for the claims
about its entry checks. -/
inductive PlaceOrderOutcome where
  | rejected : Bool → PlaceOrderOutcome  -- threw `TradingError('Invalid order parameters', retryable)`
  | dryRunId : PlaceOrderOutcome         -- returned the `'dry-run-order-id'` sentinel
  | proceeds : PlaceOrderOutcome         -- continues to leverage update / order placement
deriving DecidableEq

/-- Entry of `placeOrder` (hyperliquidClient.ts:220-237): the parameter check
`!params.coin || !params.sz || parseFloat(params.sz) <= 0` throws a
non-retryable `TradingError`; only then the size/price strings are
canonicalized (no control-flow effect) and the `DRY_RUN` short-circuit
returns the sentinel order id.  (The preceding client-initialization check
concerns instance state and is outside this entry model.) -/
def placeOrderEntry (dryRun : Bool) (coin sz : String) : PlaceOrderOutcome :=
  if coin = "" ∨ sz = "" ∨ jsLe (parseFloatM sz) (.fin 0) then .rejected false
  else if dryRun then .dryRunId
  else .proceeds

/-- Events observable from `reconnect` (hyperliquidClient.ts:446-473). -/
inductive ReconnectEvent where
  | attemptLog : Nat → ReconnectEvent        -- logger.info 'Reconnection attempt n/10'
  | failedLog : Nat → ReconnectEvent         -- logger.error 'Reconnection failed' at attempt n
  | fatalLog : ReconnectEvent                -- logger.error 'Max reconnection attempts reached'
  | notificationSent : ReconnectEvent        -- a NotificationSink call (never made by reconnect)
deriving DecidableEq

/-- `maxAttempts` of `reconnect` (hyperliquidClient.ts:447). -/
def reconnectMaxAttempts : Nat := 10

/-- Backoff delay of reconnection attempt `n` (hyperliquidClient.ts:448):
`Math.min(1000 * Math.pow(2, attempt - 1), 30000)` milliseconds. -/
def reconnectDelay (attempt : Nat) : Nat :=
  min (1000 * 2 ^ (attempt - 1)) 30000

/-- `reconnect` (hyperliquidClient.ts:446-473) as a trace function.
`subscribeOk n` is whether the `subscribeToUserFills` retry of attempt `n`
succeeds.  `fuel` bounds the recursion depth (the run from `attempt = 1`
terminates within `reconnectMaxAttempts + 1` frames, so `fuel = 11` is
exact).  Returns the emitted events and the error value propagated to the
caller: the source function returns `void` on every path — in particular the
exhaustion branch only logs and returns — so the second component is the
constant `none`, faithfully recording that nothing is surfaced. -/
def reconnectRun (subscribeOk : Nat → Bool) :
    Nat → Nat → List ReconnectEvent × Option AppErr
  | 0, _ => ([], none)
  | fuel + 1, attempt =>
      if reconnectMaxAttempts < attempt then ([.fatalLog], none)
      else if subscribeOk attempt then ([.attemptLog attempt], none)
      else
        let rest := reconnectRun subscribeOk fuel (attempt + 1)
        (.attemptLog attempt :: .failedLog attempt :: rest.1, rest.2)

/-! ## Theorems -/

/-- C2 (counterexample): the claim that the maximum-position-size cap is
still applied when `targetEquity = 0` is false.  With `SIZE_MULTIPLIER = 1`
and `MAX_POSITION_SIZE_PERCENT = 50`, input `targetSize = 1000`,
`ourEquity = 100`, `targetEquity = 0` yields `1000`, strictly above the cap
value `50` that `capPositionSize` would have enforced: the early return at
risk.ts:60-63 bypasses the cap. -/
theorem calculatePositionSize_zeroEquity_cap_counterexample :
    calculatePositionSize ⟨1, 20, 50, 10, 10, []⟩ (.fin 1000) (.fin 100) (.fin 0) = .fin 1000 ∧
    capPositionSize ⟨1, 20, 50, 10, 10, []⟩ (.fin 1000) (.fin 100) = .fin 50 ∧
    jsLt (.fin 50) (.fin 1000) = true := by
  refine ⟨?_, ?_, ?_⟩
  · norm_num [calculatePositionSize, jsMul]
  · norm_num [capPositionSize, jsMin, jsMul, jsDiv, jsLe, jsIsNaN]
  · norm_num [jsLt]

/-- C2 (amended): for every configuration, target size and equity,
`calculatePositionSize` with `targetEquity = 0` returns exactly
`targetSize * SIZE_MULTIPLIER` without any division — and the
maximum-position-size cap is **not** applied in this branch: the early
return skips `capPositionSize` entirely. -/
theorem calculatePositionSize_zeroEquity (cfg : RiskConfig) (targetSize ourEquity : JSNum) :
    calculatePositionSize cfg targetSize ourEquity (.fin 0)
      = jsMul targetSize (.fin cfg.SIZE_MULTIPLIER) := by
  simp [calculatePositionSize]

/-- C3: evaluation of the canonicalization at the failing input.  The
integer string `"100"` (denoting `100`) is rewritten by
`removeTrailingZeros` — and by the identical inline replacement in
`placeOrder` — to `"1"` (denoting `1`): the regex `\.?0+$` strips the
significant trailing zeros of an integer string, so the transformation does
not preserve the denoted numeric value, contradicting the wire-canonical-
ization requirement the claim states. -/
theorem removeTrailingZeros_integer_corruption :
    removeTrailingZeros "100" = "1" ∧
    parseDecimalQ "100" = some 100 ∧ parseDecimalQ "1" = some 1 := by
  decide

/-- C9: the reconnection backoff delay for attempt `n` is
`min(1000 * 2^(n-1), 30000)` ms: attempts 1–6 give exactly
1000, 2000, 4000, 8000, 16000, 30000, and every later attempt stays at the
30000 cap. -/
theorem reconnectDelay_backoff_sequence :
    reconnectDelay 1 = 1000 ∧ reconnectDelay 2 = 2000 ∧ reconnectDelay 3 = 4000 ∧
    reconnectDelay 4 = 8000 ∧ reconnectDelay 5 = 16000 ∧ reconnectDelay 6 = 30000 ∧
    ∀ n, 6 ≤ n → reconnectDelay n = 30000 := by
  refine ⟨rfl, rfl, rfl, rfl, rfl, rfl, ?_⟩
  intro n hn
  have h1 : (5 : Nat) ≤ n - 1 := by omega
  have h2 : (32 : Nat) ≤ 2 ^ (n - 1) := by
    calc (32 : Nat) = 2 ^ 5 := rfl
    _ ≤ 2 ^ (n - 1) := Nat.pow_le_pow_right (by norm_num) h1
  have h3 : (30000 : Nat) ≤ 1000 * 2 ^ (n - 1) := by omega
  exact Nat.min_eq_right h3

/-- Witness for C9: attempt 7 still gets the 30000 ms cap. -/
theorem reconnectDelay_backoff_sequence_witness :
    reconnectDelay 7 = 30000 :=
  reconnectDelay_backoff_sequence.2.2.2.2.2.2 7 (by norm_num)

/-- C10: an order whose coin is empty, whose size string is empty, or whose
parsed size is ≤ 0 is rejected by `placeOrder` with a non-retryable
`TradingError`, and this happens before the dry-run short-circuit: even with
`DRY_RUN` enabled such parameters never produce the sentinel order id. -/
theorem placeOrder_param_check_before_dryRun (dryRun : Bool) (coin sz : String)
    (h : coin = "" ∨ sz = "" ∨ jsLe (parseFloatM sz) (.fin 0) = true) :
    placeOrderEntry dryRun coin sz = .rejected false ∧
    placeOrderEntry dryRun coin sz ≠ .dryRunId := by
  unfold placeOrderEntry
  rw [if_pos h]
  exact ⟨rfl, by decide⟩

/-- Witness for C10: a zero-size order in dry-run mode is rejected, not
given the sentinel id. -/
theorem placeOrder_param_check_before_dryRun_witness :
    placeOrderEntry true "BTC" "0" = .rejected false ∧
    placeOrderEntry true "BTC" "0" ≠ .dryRunId :=
  placeOrder_param_check_before_dryRun true "BTC" "0" (Or.inr (Or.inr (by decide)))

/-- C5: `validateTradeParams` checks the blocked list first: whenever the
coin is blocked (case-insensitive upper-cased membership) — in particular
when the notional is also below the minimum — the returned reason is the
blocked-asset reason, not the notional reason. -/
theorem validateTradeParams_blocked_first (cfg : RiskConfig) (params : CopyTradeParamsM)
    (price ourEquity : JSNum)
    (hblocked : isAssetBlocked cfg params.coin = true)
    (_hnotional : meetsMinimumNotional cfg params.size price = false) :
    validateTradeParams cfg params price ourEquity = some .blockedAsset := by
  unfold validateTradeParams
  rw [if_pos hblocked]

/-- Witness for C5: lower-case `"doge"` against blocked list `["DOGE"]` with
notional `1 * 5 = 5` below the minimum `10` reports the blocked reason. -/
theorem validateTradeParams_blocked_first_witness :
    validateTradeParams ⟨1, 20, 50, 10, 10, ["DOGE"]⟩
      ⟨"doge", "B", .fin 1, false, .fin 1⟩ (.fin 5) (.fin 1000) = some .blockedAsset :=
  validateTradeParams_blocked_first _ _ _ _ (by decide)
    (by norm_num [meetsMinimumNotional, jsMul, jsLe])

/-- C6: `getTradeAction` classifies `Open Long`/`Open Short` as `open`;
`Close Long`/`Close Short` as `close` exactly when
`Math.abs(startPosition) <= size`, and `reduce` otherwise; any other
direction string falls back to `reduce`. -/
theorem getTradeAction_classification (fill : Fill) :
    ((fill.dir = "Open Long" ∨ fill.dir = "Open Short") →
      getTradeAction fill = .tOpen) ∧
    ((fill.dir = "Close Long" ∨ fill.dir = "Close Short") →
      (getTradeAction fill = .tClose ↔ jsLe (jsAbs fill.startPosition) fill.sz = true) ∧
      (jsLe (jsAbs fill.startPosition) fill.sz = false → getTradeAction fill = .tReduce)) ∧
    ((fill.dir ≠ "Open Long" ∧ fill.dir ≠ "Open Short" ∧
      fill.dir ≠ "Close Long" ∧ fill.dir ≠ "Close Short") →
      getTradeAction fill = .tReduce) := by
  unfold getTradeAction
  refine ⟨fun h => if_pos h, fun h => ?_, fun h => ?_⟩
  · have hno : ¬ (fill.dir = "Open Long" ∨ fill.dir = "Open Short") := by
      rcases h with h | h <;> rw [h] <;> decide
    rw [if_neg hno, if_pos h]
    cases hle : jsLe (jsAbs fill.startPosition) fill.sz <;> simp [hle]
  · obtain ⟨h1, h2, h3, h4⟩ := h
    rw [if_neg (by tauto), if_neg (by tauto)]

/-- Witness for C6: the claim's boundary fills — `startPosition = 10`,
`size = 10` on a `Close Long` gives `close`; `startPosition = 10`,
`size = 4` gives `reduce`. -/
theorem getTradeAction_classification_witness :
    getTradeAction ⟨"BTC", "A", .fin 10, .fin 100, .fin 10, "Close Long"⟩ = .tClose ∧
    getTradeAction ⟨"BTC", "A", .fin 4, .fin 100, .fin 10, "Close Long"⟩ = .tReduce := by
  constructor
  · exact ((getTradeAction_classification _).2.1 (Or.inl rfl)).1.mpr (by decide)
  · exact ((getTradeAction_classification _).2.1 (Or.inl rfl)).2 (by decide)

/-- C7 (counterexample): when every reconnection attempt fails, the run from
attempt 1 ends with no error value surfaced to the caller (`reconnect`
returns `void` on the exhaustion path, it only logs) and with zero
notification-sink events — refuting the claim that the stream "emits exactly
one fatal notification and surfaces a fatal error to the owning
supervisor". -/
theorem reconnect_exhaustion_counterexample :
    (reconnectRun (fun _ => false) 11 1).2 = none ∧
    (reconnectRun (fun _ => false) 11 1).1.count .notificationSent = 0 := by
  decide

/-- C7 (amended): when the reconnection attempts are exhausted (every
attempt fails), the stream stops retrying after the 10 bounded attempts
(21 logged events: one attempt log and one failure log per attempt, plus the
final fatal log), logs the fatal "max reconnection attempts reached" error
exactly once — not once per attempt — but sends no notification-sink
message and propagates no error to the caller: the exhaustion branch only
logs and returns. -/
theorem reconnect_exhaustion_amended (subscribeOk : Nat → Bool)
    (hfail : ∀ n, subscribeOk n = false) :
    (reconnectRun subscribeOk 11 1).1.count .fatalLog = 1 ∧
    (reconnectRun subscribeOk 11 1).1.length = 21 ∧
    (reconnectRun subscribeOk 11 1).1.count .notificationSent = 0 ∧
    (reconnectRun subscribeOk 11 1).2 = none := by
  have h : subscribeOk = fun _ => false := funext hfail
  subst h
  decide

/-- Witness for C7's amended claim: the always-failing attempt oracle. -/
theorem reconnect_exhaustion_amended_witness :
    (reconnectRun (fun _ => false) 11 1).1.count .fatalLog = 1 ∧
    (reconnectRun (fun _ => false) 11 1).1.length = 21 ∧
    (reconnectRun (fun _ => false) 11 1).1.count .notificationSent = 0 ∧
    (reconnectRun (fun _ => false) 11 1).2 = none :=
  reconnect_exhaustion_amended (fun _ => false) (fun _ => rfl)

/-- If `calculateTradeParams` produced parameters for an `open` action, the
max-concurrent-trades gate has passed, so the active count was strictly
below the configured maximum. -/
lemma calculateTradeParams_open_gate {cfg : RiskConfig} {fill : Fill}
    {tp : Option PositionM} {oe te : JSNum} {count : Nat} {p : CopyTradeParamsM}
    (hp : calculateTradeParams cfg fill .tOpen tp oe te count = some p) :
    count < cfg.MAX_CONCURRENT_TRADES := by
  by_contra hge
  push_neg at hge
  simp [calculateTradeParams, hge] at hp

/-- C1: the active-trade ledger invariant through one `handleFill` step.
If the ledger respects the max-concurrent-trades bound before the fill, it
does after; a coin appears only through a successful execution of an `open`
action (and it is the fill's coin); a coin disappears only through a
successful execution of a `close` action (and it is the fill's coin);
`reduce` actions and failed executions leave the ledger unchanged. -/
theorem handleFill_ledger_invariant (cfg : RiskConfig) (fill : Fill)
    (tp : Option PositionM) (oe te : JSNum) (fetchOk execSuccess : Bool)
    (s : Finset String) (hcard : s.card ≤ cfg.MAX_CONCURRENT_TRADES) :
    (handleFillStep cfg fill tp oe te fetchOk execSuccess s).1.card
        ≤ cfg.MAX_CONCURRENT_TRADES ∧
    (∀ c, c ∈ (handleFillStep cfg fill tp oe te fetchOk execSuccess s).1 → c ∉ s →
      getTradeAction fill = .tOpen ∧ execSuccess = true ∧ c = fill.coin) ∧
    (∀ c, c ∈ s → c ∉ (handleFillStep cfg fill tp oe te fetchOk execSuccess s).1 →
      getTradeAction fill = .tClose ∧ execSuccess = true ∧ c = fill.coin) ∧
    ((getTradeAction fill = .tReduce ∨ execSuccess = false) →
      (handleFillStep cfg fill tp oe te fetchOk execSuccess s).1 = s) := by
  have trivialStep : ∀ b : Bool,
      handleFillStep cfg fill tp oe te fetchOk execSuccess s = (s, b) →
      (handleFillStep cfg fill tp oe te fetchOk execSuccess s).1.card
          ≤ cfg.MAX_CONCURRENT_TRADES ∧
      (∀ c, c ∈ (handleFillStep cfg fill tp oe te fetchOk execSuccess s).1 → c ∉ s →
        getTradeAction fill = .tOpen ∧ execSuccess = true ∧ c = fill.coin) ∧
      (∀ c, c ∈ s → c ∉ (handleFillStep cfg fill tp oe te fetchOk execSuccess s).1 →
        getTradeAction fill = .tClose ∧ execSuccess = true ∧ c = fill.coin) ∧
      ((getTradeAction fill = .tReduce ∨ execSuccess = false) →
        (handleFillStep cfg fill tp oe te fetchOk execSuccess s).1 = s) := by
    intro b hstep
    rw [hstep]
    exact ⟨hcard, fun c hc hns => absurd hc hns, fun c hc hns => absurd hc hns, fun _ => rfl⟩
  cases fetchOk with
  | false => exact trivialStep false (by simp [handleFillStep])
  | true =>
      cases hp : calculateTradeParams cfg fill (getTradeAction fill) tp oe te s.card with
      | none => exact trivialStep false (by simp [handleFillStep, hp])
      | some p =>
          cases execSuccess with
          | false => exact trivialStep true (by simp [handleFillStep, hp])
          | true =>
              have htri : getTradeAction fill = .tOpen ∨ getTradeAction fill = .tReduce ∨
                  getTradeAction fill = .tClose := by
                cases getTradeAction fill <;> simp
              rcases htri with ha | ha | ha
              · rw [ha] at hp
                have hstep : handleFillStep cfg fill tp oe te true true s
                    = (insert fill.coin s, true) := by
                  simp [handleFillStep, ha, hp]
                have hlt : s.card < cfg.MAX_CONCURRENT_TRADES :=
                  calculateTradeParams_open_gate hp
                rw [hstep]
                refine ⟨?_, ?_, ?_, ?_⟩
                · calc (insert fill.coin s).card ≤ s.card + 1 := Finset.card_insert_le _ _
                    _ ≤ cfg.MAX_CONCURRENT_TRADES := hlt
                · intro c hc hns
                  rcases Finset.mem_insert.mp hc with h | h
                  · exact ⟨ha, rfl, h⟩
                  · exact absurd h hns
                · intro c hc hns
                  exact absurd (Finset.mem_insert_of_mem hc) hns
                · rintro (h | h)
                  · exact absurd (ha.symm.trans h) (by decide)
                  · exact Bool.noConfusion h
              · rw [ha] at hp
                exact trivialStep true (by simp [handleFillStep, ha, hp])
              · rw [ha] at hp
                have hstep : handleFillStep cfg fill tp oe te true true s
                    = (s.erase fill.coin, true) := by
                  simp [handleFillStep, ha, hp]
                rw [hstep]
                refine ⟨?_, ?_, ?_, ?_⟩
                · exact le_trans (Finset.card_le_card (Finset.erase_subset _ _)) hcard
                · intro c hc hns
                  exact absurd (Finset.mem_of_mem_erase hc) hns
                · intro c hc hns
                  refine ⟨ha, rfl, ?_⟩
                  by_contra hne
                  exact hns (Finset.mem_erase.mpr ⟨hne, hc⟩)
                · rintro (h | h)
                  · exact absurd (ha.symm.trans h) (by decide)
                  · exact Bool.noConfusion h

/-- Witness for C1: an `Open Long` fill for a fresh coin under an empty
ledger with `MAX_CONCURRENT_TRADES = 10`: the step inserts the coin and all
invariant conjuncts hold. -/
theorem handleFill_ledger_invariant_witness :
    (handleFillStep ⟨1, 20, 50, 10, 10, []⟩
        ⟨"BTC", "B", .fin 1, .fin 100, .fin 0, "Open Long"⟩
        none (.fin 1000) (.fin 1000) true true ∅).1.card ≤ 10 ∧
    (∀ c, c ∈ (handleFillStep ⟨1, 20, 50, 10, 10, []⟩
        ⟨"BTC", "B", .fin 1, .fin 100, .fin 0, "Open Long"⟩
        none (.fin 1000) (.fin 1000) true true ∅).1 → c ∉ (∅ : Finset String) →
      getTradeAction ⟨"BTC", "B", .fin 1, .fin 100, .fin 0, "Open Long"⟩ = .tOpen ∧
        true = true ∧ c = "BTC") :=
  let h := handleFill_ledger_invariant ⟨1, 20, 50, 10, 10, []⟩
    ⟨"BTC", "B", .fin 1, .fin 100, .fin 0, "Open Long"⟩
    none (.fin 1000) (.fin 1000) true true ∅ (by simp)
  ⟨h.1, h.2.1⟩

/-- C4: `executeTrade` never lets an error escape — it is a total function
into `TradeResultM`.  (a) A validation failure returns a failed result at
once with an empty attempt list: no order placement and no retry.  (b) A
non-retryable error thrown by the first placement attempt is never retried:
the attempt list is exactly `[1]` and the failed result carries that error.
(c) When all three attempts fail with retryable errors (the third may be
anything), the attempt list is exactly `[1, 2, 3]` and the caller receives a
failed result carrying the last error's message. -/
theorem executeTrade_error_boundary (cfg : RiskConfig) (params : CopyTradeParamsM)
    (price ourEquity : JSNum) (fn : Nat → AttemptResult String) :
    (∀ r, validateTradeParams cfg params price ourEquity = some r →
      executeTrade cfg params price ourEquity fn
        = ({ success := false, orderId := none,
             error := some (validationMessage r params) }, [])) ∧
    (validateTradeParams cfg params price ourEquity = none →
      ∀ e, fn 1 = .err e → e.retryable = false →
        executeTrade cfg params price ourEquity fn
          = ({ success := false, orderId := none, error := some e.message }, [1])) ∧
    (validateTradeParams cfg params price ourEquity = none →
      ∀ e1 e2 e3, fn 1 = .err e1 → fn 2 = .err e2 → fn 3 = .err e3 →
        e1.retryable = true → e2.retryable = true →
        executeTrade cfg params price ourEquity fn
          = ({ success := false, orderId := none, error := some e3.message }, [1, 2, 3])) := by
  refine ⟨?_, ?_, ?_⟩
  · intro r hr
    simp [executeTrade, hr]
  · intro hv e h1 hret
    simp [executeTrade, hv, retryWithBackoff, h1, hret]
  · intro hv e1 e2 e3 h1 h2 h3 hr1 hr2
    cases hrb : e3.retryable <;>
      simp [executeTrade, hv, retryWithBackoff, h1, h2, h3, hr1, hr2, hrb]

/-- Witness for C4, exercising all three conjuncts at concrete inputs:
a blocked coin fails validation with no placement attempt; a non-retryable
placement error is not retried; three retryable failures exhaust the
attempts `[1, 2, 3]` and the caller receives a failed result with the last
error's message. -/
theorem executeTrade_error_boundary_witness :
    executeTrade ⟨1, 20, 50, 10, 10, ["BTC"]⟩ ⟨"BTC", "B", .fin 1, false, .fin 1⟩
        (.fin 10) (.fin 1000) (fun _ => .err ⟨"network timeout", true⟩)
      = ({ success := false, orderId := none,
           error := some (validationMessage .blockedAsset ⟨"BTC", "B", .fin 1, false, .fin 1⟩) },
         []) ∧
    executeTrade ⟨1, 20, 50, 10, 10, []⟩ ⟨"BTC", "B", .fin 1, false, .fin 1⟩
        (.fin 10) (.fin 1000) (fun _ => .err ⟨"Invalid order parameters", false⟩)
      = ({ success := false, orderId := none, error := some "Invalid order parameters" }, [1]) ∧
    executeTrade ⟨1, 20, 50, 10, 10, []⟩ ⟨"BTC", "B", .fin 1, false, .fin 1⟩
        (.fin 10) (.fin 1000) (fun _ => .err ⟨"network timeout", true⟩)
      = ({ success := false, orderId := none, error := some "network timeout" }, [1, 2, 3]) :=
  ⟨(executeTrade_error_boundary ⟨1, 20, 50, 10, 10, ["BTC"]⟩ ⟨"BTC", "B", .fin 1, false, .fin 1⟩
      (.fin 10) (.fin 1000) (fun _ => .err ⟨"network timeout", true⟩)).1
    .blockedAsset (by decide),
   (executeTrade_error_boundary ⟨1, 20, 50, 10, 10, []⟩ ⟨"BTC", "B", .fin 1, false, .fin 1⟩
      (.fin 10) (.fin 1000) (fun _ => .err ⟨"Invalid order parameters", false⟩)).2.1
    (by norm_num [validateTradeParams, isAssetBlocked, meetsMinimumNotional,
          jsMul, jsDiv, jsLe, jsLt, jsMin, jsIsNaN])
    ⟨"Invalid order parameters", false⟩ rfl rfl,
   (executeTrade_error_boundary ⟨1, 20, 50, 10, 10, []⟩ ⟨"BTC", "B", .fin 1, false, .fin 1⟩
      (.fin 10) (.fin 1000) (fun _ => .err ⟨"network timeout", true⟩)).2.2
    (by norm_num [validateTradeParams, isAssetBlocked, meetsMinimumNotional,
          jsMul, jsDiv, jsLe, jsLt, jsMin, jsIsNaN])
    ⟨"network timeout", true⟩ ⟨"network timeout", true⟩ ⟨"network timeout", true⟩
    rfl rfl rfl rfl rfl⟩

/-- C8: whenever the computed position size is non-positive, `NaN` or
non-finite, `calculateTradeParams` returns `null` (for every action, target
position and active count), and the `handleFill` step is an intentional
no-op: no order execution is attempted (so no failed-trade result can be
produced) and the ledger is unchanged. -/
theorem calculateTradeParams_invalid_size (cfg : RiskConfig) (fill : Fill)
    (action : TradeAction) (tp : Option PositionM) (oe te : JSNum)
    (count : Nat) (s : Finset String) (execSuccess : Bool)
    (h : jsLe (calculatePositionSize cfg fill.sz oe te) (.fin 0) = true ∨
         jsIsNaN (calculatePositionSize cfg fill.sz oe te) = true ∨
         jsIsFinite (calculatePositionSize cfg fill.sz oe te) = false) :
    calculateTradeParams cfg fill action tp oe te count = none ∧
    handleFillStep cfg fill tp oe te true execSuccess s = (s, false) := by
  have hguard : (jsLe (calculatePositionSize cfg fill.sz oe te) (.fin 0) = true) ∨
      (jsIsNaN (calculatePositionSize cfg fill.sz oe te) = true) ∨
      ¬ (jsIsFinite (calculatePositionSize cfg fill.sz oe te) = true) := by
    rcases h with h | h | h
    · exact Or.inl h
    · exact Or.inr (Or.inl h)
    · exact Or.inr (Or.inr (by simp [h]))
  have hnone : ∀ (a : TradeAction) (cnt : Nat),
      calculateTradeParams cfg fill a tp oe te cnt = none := by
    intro a cnt
    by_cases hg : a = .tOpen ∧ cfg.MAX_CONCURRENT_TRADES ≤ cnt
    · simp only [calculateTradeParams]
      rw [if_pos hg]
    · simp only [calculateTradeParams]
      rw [if_neg hg, if_pos hguard]
  refine ⟨hnone action count, ?_⟩
  have h0 := hnone (getTradeAction fill) s.card
  simp [handleFillStep, h0]

/-- Witness for C8: a zero-size fill (`sz = 0`) yields computed size `0`,
which is rejected: `calculateTradeParams` returns `none` and the fill step
attempts no order, leaving the empty ledger unchanged. -/
theorem calculateTradeParams_invalid_size_witness :
    calculateTradeParams ⟨1, 20, 50, 10, 10, []⟩
        ⟨"BTC", "B", .fin 0, .fin 100, .fin 0, "Open Long"⟩ .tOpen none
        (.fin 100) (.fin 5) 0 = none ∧
    handleFillStep ⟨1, 20, 50, 10, 10, []⟩
        ⟨"BTC", "B", .fin 0, .fin 100, .fin 0, "Open Long"⟩ none
        (.fin 100) (.fin 5) true true ∅ = (∅, false) :=
  calculateTradeParams_invalid_size ⟨1, 20, 50, 10, 10, []⟩
    ⟨"BTC", "B", .fin 0, .fin 100, .fin 0, "Open Long"⟩ .tOpen none
    (.fin 100) (.fin 5) 0 ∅ true
    (Or.inl (by norm_num [calculatePositionSize, capPositionSize, jsMin, jsMul,
      jsDiv, jsLe, jsIsNaN]))

end HLBot
